import Mathlib

/-!
Shallow embedding of the booking core of the Halls_booking backend
(`app/api/routes/bookings.py`): conflict detection, price calculation,
booking creation/cancellation, payment verification and the availability
views.  Dates are integers (day numbers since 1970-01-01), times of day
are minutes since midnight, money is exact rational arithmetic.
-/

namespace HallsBooking

/-- Calendar dates are day numbers since 1970-01-01 (a Thursday), so this
matches Python `date.weekday()` (Monday = 0, ..., Sunday = 6).
For example 2025-06-01 (a Sunday) is day 20240. -/
def weekday (d : ℤ) : ℤ := (d + 3) % 7

/-- Python `d.weekday() >= 5`: Saturday or Sunday. -/
def isWeekend (d : ℤ) : Bool := decide (5 ≤ weekday d)

/-- A time of day, stored as minutes since midnight, converted to fractional
hours: Python `t.hour + t.minute / 60 = (60 * t.hour + t.minute) / 60`. -/
def hoursOf (t : ℕ) : ℚ := (t : ℚ) / 60

/-- Python `round(x, 2)`.  Ties at exact half-cents (where Python rounds
half-to-even) never arise in the facts proved below, so rounding half-up
is used. -/
def round2 (x : ℚ) : ℚ := (⌊100 * x + 1 / 2⌋ : ℚ) / 100

/-- The inclusive day walk `while d <= last: ...; d += timedelta(days=1)`,
equally `[start + timedelta(days=i) for i in range((end-start).days + 1)]`;
empty when `hi < lo`. -/
def dateRange (lo hi : ℤ) : List ℤ := (List.range (hi + 1 - lo).toNat).map (fun i => lo + i)

/-- Error taxonomy of the booking routes (HTTP error responses). -/
inductive BookingError where
  | notFound
  | forbidden
  | invalidDateRange
  | invalidDuration
  | conflict
  | invalidSignature
  | keyError
  deriving DecidableEq, Repr

/-- `app/models/hall.py`: the fields of `Hall` the booking core reads. -/
structure Hall where
  id : ℤ
  admin_id : ℤ
  price_per_hour : ℚ
  price_per_day : ℚ
  weekend_price_multiplier : ℚ
  security_deposit : ℚ
  deleted : Bool
  deriving DecidableEq, Repr

/-- `app/models/booking.py`: a persisted booking row. -/
structure Booking where
  id : ℤ
  user_id : ℤ
  hall_id : ℤ
  start_date : ℤ
  end_date : ℤ
  start_time : ℕ
  end_time : ℕ
  status : String
  payment_mode : String
  payment_status : String
  total_price : ℚ
  razorpay_order_id : Option String := none
  razorpay_payment_id : Option String := none
  razorpay_signature : Option String := none
  deriving DecidableEq, Repr

/-- `app/schemas/booking.py` `BookingCreate`: a booking request body. -/
structure BookingCreate where
  hall_id : ℤ
  start_date : ℤ
  end_date : ℤ
  start_time : ℕ
  end_time : ℕ
  payment_mode : String
  deriving DecidableEq, Repr

/-- The filter of the `has_conflict` query (`bookings.py` lines 58-76):
same hall, status `"booked"`, date ranges intersect, and either booking
is multi-day (no time check at all in that case), or both are same-day
and the time ranges strictly overlap. -/
def conflictMatch (hall_id start_date end_date : ℤ) (start_time end_time : ℕ)
    (b : Booking) : Bool :=
  (b.hall_id == hall_id) && (b.status == "booked") &&
    decide (b.start_date ≤ end_date) && decide (b.end_date ≥ start_date) &&
    ((b.start_date != b.end_date) || (start_date != end_date) ||
      ((b.start_date == b.end_date) && (start_date == end_date) &&
        decide (b.start_time < end_time) && decide (b.end_time > start_time)))

/-- `has_conflict` (`bookings.py` lines 57-78): `.first() is not None`
over the filtered query, i.e. some stored booking matches. -/
def has_conflict (bs : List Booking) (hall_id start_date end_date : ℤ)
    (start_time end_time : ℕ) : Bool :=
  bs.any (conflictMatch hall_id start_date end_date start_time end_time)

/-- `calculate_price` (`bookings.py` lines 84-121).  Same-day: hourly rate
times duration, weekend-adjusted, plus deposit.  Multi-day: first-day hours
at the hourly rate (not weekend-adjusted), per-day rate for intermediate
days (each weekend-adjusted), last-day hours at the hourly rate, then the
whole running total is multiplied by the weekend multiplier when the end
date is a weekend, plus deposit; rounded once at the end. -/
def calculate_price (hall : Hall) (start_date end_date : ℤ)
    (start_time end_time : ℕ) : Except BookingError ℚ :=
  if start_date = end_date then
    let hours : ℚ := hoursOf end_time - hoursOf start_time
    if hours ≤ 0 then .error .invalidDuration
    else
      let total := hours * hall.price_per_hour
      let total := if isWeekend start_date then total * hall.weekend_price_multiplier else total
      .ok (round2 (total + hall.security_deposit))
  else
    let startPart : ℚ := (24 - hoursOf start_time) * hall.price_per_hour
    let midPart : ℚ := (List.range (end_date - start_date - 1).toNat).foldl
      (fun acc i =>
        let rate := if isWeekend (start_date + ((i : ℤ) + 1)) then
            hall.price_per_day * hall.weekend_price_multiplier
          else hall.price_per_day
        acc + rate) 0
    let total := startPart + midPart + hoursOf end_time * hall.price_per_hour
    let total := if isWeekend end_date then total * hall.weekend_price_multiplier else total
    .ok (round2 (total + hall.security_deposit))

/-- Modelled from the spec: §4.3 describes the intended day-walking price in
which *every* day's charge — including the first and last day of a multi-day
booking — is individually multiplied by `weekend_price_multiplier` iff that
day is a Saturday or Sunday.  The source's `calculate_price` is the
authority; this definition exists only to exhibit where the source diverges
from the spec's day-walking semantics. -/
def spec_day_walk_price (hall : Hall) (start_date end_date : ℤ)
    (start_time end_time : ℕ) : Except BookingError ℚ :=
  let w : ℤ → ℚ := fun d => if isWeekend d then hall.weekend_price_multiplier else 1
  if start_date = end_date then
    let hours : ℚ := hoursOf end_time - hoursOf start_time
    if hours ≤ 0 then .error .invalidDuration
    else .ok (round2 (hours * hall.price_per_hour * w start_date + hall.security_deposit))
  else
    let firstDay := (24 - hoursOf start_time) * hall.price_per_hour * w start_date
    let midPart : ℚ := (List.range (end_date - start_date - 1).toNat).foldl
      (fun acc i => acc + hall.price_per_day * w (start_date + ((i : ℤ) + 1))) 0
    let lastDay := hoursOf end_time * hall.price_per_hour * w end_date
    .ok (round2 (firstDay + midPart + lastDay + hall.security_deposit))

/-- `create_booking` (`bookings.py` lines 127-234), after token resolution:
role check, hall lookup excluding soft-deleted halls, date and time
validations, conflict check, pricing, then the insert.  `today`/`now_time`
stand for `date.today()`/`datetime.now().time()` and `next_id` for the
database-assigned primary key; the payment hand-off is external. -/
def create_booking (halls : List Hall) (bs : List Booking) (role : String)
    (user_id : ℤ) (today : ℤ) (now_time : ℕ) (next_id : ℤ) (data : BookingCreate) :
    Except BookingError (List Booking × ℚ) :=
  if role != "user" then .error .forbidden
  else match halls.find? (fun h => (h.id == data.hall_id) && !h.deleted) with
  | none => .error .notFound
  | some hall =>
    if data.start_date < today then .error .invalidDateRange
    else if data.end_date < data.start_date then .error .invalidDateRange
    else if data.end_date < today then .error .invalidDateRange
    else if data.start_date = today ∧ data.start_time ≤ now_time then .error .invalidDateRange
    else if data.start_date = data.end_date ∧ data.end_time ≤ data.start_time then
      .error .invalidDuration
    else if has_conflict bs data.hall_id data.start_date data.end_date
        data.start_time data.end_time then .error .conflict
    else match calculate_price hall data.start_date data.end_date
        data.start_time data.end_time with
      | .error e => .error e
      | .ok price =>
          .ok (bs ++ [{ id := next_id, user_id := user_id, hall_id := data.hall_id,
                        start_date := data.start_date, end_date := data.end_date,
                        start_time := data.start_time, end_time := data.end_time,
                        status := "booked", payment_mode := data.payment_mode,
                        payment_status := "pending", total_price := price }], price)

/-- Outcome of `verify_payment`: whether the gateway signature check was
invoked, the HTTP response, and the (possibly updated) booking row. -/
structure VerifyResult where
  invoked_signature_check : Bool
  response : Except BookingError String
  booking : Booking
  deriving Repr

/-- `verify_payment` (`bookings.py` lines 240-272) for a booking that was
found: the idempotency check short-circuits before the signature
verification; `signature_valid` models the outcome of the external
`razorpay_client.utility.verify_payment_signature` call. -/
def verify_payment (b : Booking) (signature_valid : Bool)
    (payment_id signature : String) : VerifyResult :=
  if b.payment_status == "success" then
    ⟨false, .ok "Payment already verified", b⟩
  else if signature_valid then
    ⟨true, .ok "Payment verified successfully",
      { b with payment_status := "success", razorpay_payment_id := some payment_id,
               razorpay_signature := some signature }⟩
  else
    ⟨true, .error .invalidSignature, { b with payment_status := "failed" }⟩

/-- `cancel_booking` (`bookings.py` lines 306-321): the booking is looked
up by primary key `id` and owner `user_id`; if found its status is set to
`"cancelled"` (as `id` is the primary key, the `.first()` update equals a
pointwise map). -/
def cancel_booking (bs : List Booking) (user_id booking_id : ℤ) :
    Except BookingError (List Booking) :=
  if bs.any (fun b => (b.id == booking_id) && (b.user_id == user_id)) then
    .ok (bs.map (fun b =>
      if (b.id == booking_id) && (b.user_id == user_id) then
        { b with status := "cancelled" }
      else b))
  else .error .notFound

/-- The booking query shared by the availability views: status `"booked"`
on the given hall with the date range intersecting `[lo, hi]`. -/
def overlapQuery (hall_id lo hi : ℤ) (b : Booking) : Bool :=
  (b.hall_id == hall_id) && (b.status == "booked") &&
    decide (b.start_date ≤ hi) && decide (b.end_date ≥ lo)

/-- `available_dates` (`bookings.py` lines 399-431) after month parsing:
collect every date of the month touched by a booked booking, and return
the month's other days in order.  Note the route never consults the halls
table. -/
def available_dates (bs : List Booking) (hall_id month_start month_end : ℤ) : List ℤ :=
  let booked : List ℤ :=
    ((bs.filter (overlapQuery hall_id month_start month_end)).map
      (fun b => dateRange (max b.start_date month_start) (min b.end_date month_end))).flatten
  (dateRange month_start month_end).filter (fun d => !(booked.contains d))

/-- The per-booking blocked window of `available_slots` for the target
date, in minutes ("23:59" is minute 1439); `none` when no branch fires
(unreachable for bookings returned by the query). -/
def blockedFor (target : ℤ) (b : Booking) : Option (ℕ × ℕ) :=
  if b.start_date < target ∧ target < b.end_date then some (0, 1439)
  else if target = b.start_date ∧ b.start_date ≠ b.end_date then some (b.start_time, 1439)
  else if target = b.end_date ∧ b.start_date ≠ b.end_date then some (0, b.end_time)
  else if b.start_date = b.end_date ∧ b.end_date = target then some (b.start_time, b.end_time)
  else none

/-- Ordering used by Python's `blocked.sort()` on `("HH:MM", "HH:MM")`
pairs: lexicographic, and on zero-padded strings string order is numeric
order. -/
def pairLe (a b : ℕ × ℕ) : Bool :=
  decide (a.1 < b.1) || ((a.1 == b.1) && decide (a.2 ≤ b.2))

/-- Stable insertion into a sorted list (new element goes after equals). -/
def insertBy {α : Type} (le : α → α → Bool) (x : α) : List α → List α
  | [] => [x]
  | y :: ys => if le y x then y :: insertBy le x ys else x :: y :: ys

/-- Stable sort, modelling Python's stable `list.sort()`. -/
def sortBy {α : Type} (le : α → α → Bool) : List α → List α
  | [] => []
  | x :: xs => insertBy le x (sortBy le xs)

/-- The coalescing loop of `available_slots`: extend the current block
while the next start is `<=` the current end, else emit it. -/
def mergeBlocks : (ℕ × ℕ) → List (ℕ × ℕ) → List (ℕ × ℕ)
  | (s, e), [] => [(s, e)]
  | (s, e), (s2, e2) :: rest =>
    if s2 ≤ e then mergeBlocks (s, max e e2) rest
    else (s, e) :: mergeBlocks (s2, e2) rest

/-- The gap loop of `available_slots`: free windows between merged blocks
and the day boundaries 00:00 and "23:59". -/
def gapsAfter (last : ℕ) : List (ℕ × ℕ) → List (ℕ × ℕ)
  | [] => if last ≠ 1439 then [(last, 1439)] else []
  | (s, e) :: rest => (if last < s then [(last, s)] else []) ++ gapsAfter e rest

/-- `available_slots` (`bookings.py` lines 437-501) after date parsing:
blocked windows of the booked bookings covering the target date, full-day
short-circuits, sort, merge, and gap extraction.  The route never consults
the halls table. -/
def available_slots (bs : List Booking) (hall_id target : ℤ) : List (ℕ × ℕ) :=
  let q := bs.filter (overlapQuery hall_id target target)
  if q.isEmpty then [(0, 1439)]
  else
    let blocked := q.filterMap (blockedFor target)
    if blocked.any (fun p => (p.1 == 0) && (p.2 == 1439)) then []
    else
      match sortBy pairLe blocked with
      | [] => []
      | h :: t => gapsAfter 0 (mergeBlocks h t)

/-- Appending to `hall_map[b.hall_id]`: `none` models the `KeyError`
raised when the key is absent. -/
def appendDates (m : List (ℤ × List ℤ)) (hid : ℤ) (ds : List ℤ) :
    Option (List (ℤ × List ℤ)) :=
  match m with
  | [] => none
  | (k, v) :: rest =>
    if k = hid then some ((k, v ++ ds) :: rest)
    else (appendDates rest hid ds).map (fun r => (k, v) :: r)

/-- One iteration of the booking loop of `multi_hall_calendar`: walk the
booking's days clipped to the month and append them under its hall; a
missing key raises (`KeyError`) only when at least one day is appended. -/
def calendarStep (month_start month_end : ℤ) (m : List (ℤ × List ℤ)) (b : Booking) :
    Except BookingError (List (ℤ × List ℤ)) :=
  let lo := max b.start_date month_start
  let hi := min b.end_date month_end
  if lo ≤ hi then
    match appendDates m b.hall_id (dateRange lo hi) with
    | some m2 => .ok m2
    | none => .error .keyError
  else .ok m

/-- `multi_hall_calendar` (`bookings.py` lines 507-539) after month
parsing: per-hall map over the non-deleted halls, then all booked bookings
intersecting the month — with no hall filter — are walked day by day;
`sorted(list(set(days)))` becomes a sorted dedup. -/
def multi_hall_calendar (halls : List Hall) (bs : List Booking)
    (month_start month_end : ℤ) : Except BookingError (List (ℤ × List ℤ)) := do
  let hallMap : List (ℤ × List ℤ) := (halls.filter (fun h => !h.deleted)).map (fun h => (h.id, []))
  let q := bs.filter (fun b => (b.status == "booked") &&
    decide (b.start_date ≤ month_end) && decide (b.end_date ≥ month_start))
  let final ← q.foldlM (calendarStep month_start month_end) hallMap
  return final.map (fun p => (p.1, sortBy (fun a b => decide (a ≤ b)) p.2.dedup))

/-! ### Concrete instances used in the claims -/

/-- The rate card of the spec's concrete pricing scenario:
`price_per_hour=100`, `price_per_day=2000`, `weekend_price_multiplier=1.5`,
`security_deposit=50`. -/
def hallCard : Hall :=
  { id := 1, admin_id := 1, price_per_hour := 100, price_per_day := 2000,
    weekend_price_multiplier := 3/2, security_deposit := 50, deleted := false }

/-- A hall with zero day rate, used to compare spans of different shapes. -/
def hallMono : Hall :=
  { id := 1, admin_id := 1, price_per_hour := 100, price_per_day := 0,
    weekend_price_multiplier := 2, security_deposit := 0, deleted := false }

/-- A soft-deleted hall. -/
def hallDeleted : Hall :=
  { id := 1, admin_id := 1, price_per_hour := 100, price_per_day := 2000,
    weekend_price_multiplier := 3/2, security_deposit := 50, deleted := true }

/-- A booked multi-day booking on hall 1: 2025-06-01 20:00 → 2025-06-02
10:00 (day 20240 is 2025-06-01; 20:00 is minute 1200, 10:00 minute 600). -/
def bookMulti : Booking :=
  { id := 1, user_id := 1, hall_id := 1, start_date := 20240, end_date := 20241,
    start_time := 1200, end_time := 600, status := "booked",
    payment_mode := "venue", payment_status := "pending", total_price := 0 }

/-- The spec scenario's booked same-day booking: hall 1,
2025-06-01 10:00–14:00 (minutes 600–840). -/
def bookSame : Booking :=
  { id := 2, user_id := 1, hall_id := 1, start_date := 20240, end_date := 20240,
    start_time := 600, end_time := 840, status := "booked",
    payment_mode := "venue", payment_status := "pending", total_price := 0 }

/-- A booking whose online payment already succeeded. -/
def bookPaid : Booking :=
  { id := 3, user_id := 1, hall_id := 1, start_date := 20240, end_date := 20240,
    start_time := 600, end_time := 840, status := "booked",
    payment_mode := "online", payment_status := "success", total_price := 450,
    razorpay_order_id := some "order_1" }

/-- A request for the soft-deleted hall. -/
def reqDeleted : BookingCreate :=
  { hall_id := 1, start_date := 20242, end_date := 20242,
    start_time := 600, end_time := 840, payment_mode := "venue" }

/-! ### Helper lemmas -/

/-- Evaluate `round2` once the scaled value is bracketed by an integer. -/
theorem round2_eq (x : ℚ) (k : ℤ) (h1 : (k : ℚ) ≤ 100 * x + 1 / 2)
    (h2 : 100 * x + 1 / 2 < (k : ℚ) + 1) : round2 x = (k : ℚ) / 100 := by
  unfold round2
  congr 1
  exact_mod_cast Int.floor_eq_iff.mpr ⟨h1, by exact_mod_cast h2⟩

theorem round2_mono {a b : ℚ} (h : a ≤ b) : round2 a ≤ round2 b := by
  unfold round2
  have h3 : ⌊100 * a + 1 / 2⌋ ≤ ⌊100 * b + 1 / 2⌋ := Int.floor_mono (by linarith)
  have h4 : ((⌊100 * a + 1 / 2⌋ : ℤ) : ℚ) ≤ ((⌊100 * b + 1 / 2⌋ : ℤ) : ℚ) := by
    exact_mod_cast h3
  linarith

/-- Filtering to `status = "booked"` first does not change `any p` when
`p` itself demands that status. -/
theorem filter_booked_any (bs : List Booking) (p : Booking → Bool)
    (hp : ∀ b, p b = true → b.status == "booked") :
    (bs.filter (fun b => b.status == "booked")).any p = bs.any p := by
  induction bs with
  | nil => rfl
  | cons x xs ih =>
    cases hx : (x.status == "booked") with
    | true => simp [List.filter_cons, hx, ih]
    | false =>
      have hpx : p x = false := by
        cases hpx2 : p x with
        | true => exact absurd (hp x hpx2) (by simp [hx])
        | false => rfl
      simp [List.filter_cons, hx, ih, hpx]

/-- Filtering to `status = "booked"` first does not change `filter p` when
`p` itself demands that status. -/
theorem filter_booked_filter (bs : List Booking) (p : Booking → Bool)
    (hp : ∀ b, p b = true → b.status == "booked") :
    (bs.filter (fun b => b.status == "booked")).filter p = bs.filter p := by
  induction bs with
  | nil => rfl
  | cons x xs ih =>
    cases hx : (x.status == "booked") with
    | true => simp [List.filter_cons, hx, ih]
    | false =>
      have hpx : p x = false := by
        cases hpx2 : p x with
        | true => exact absurd (hp x hpx2) (by simp [hx])
        | false => rfl
      simp [List.filter_cons, hx, ih, hpx]

theorem conflictMatch_booked (hid sd ed : ℤ) (st et : ℕ) (b : Booking)
    (h : conflictMatch hid sd ed st et b = true) : b.status == "booked" := by
  unfold conflictMatch at h
  simp only [Bool.and_eq_true] at h
  exact h.1.1.1.2

theorem overlapQuery_booked (hid lo hi : ℤ) (b : Booking)
    (h : overlapQuery hid lo hi b = true) : b.status == "booked" := by
  unfold overlapQuery at h
  simp only [Bool.and_eq_true] at h
  exact h.1.1.2

theorem except_bind_error {α β : Type} (e : BookingError)
    (f : α → Except BookingError β) : (Except.error e >>= f) = Except.error e := rfl

theorem except_bind_ok {α β : Type} (a : α)
    (f : α → Except BookingError β) : (Except.ok a >>= f) = f a := rfl

theorem appendDates_eq_none (m : List (ℤ × List ℤ)) (hid : ℤ) (ds : List ℤ)
    (h : hid ∉ m.map Prod.fst) : appendDates m hid ds = none := by
  induction m with
  | nil => rfl
  | cons x xs ih =>
    obtain ⟨k, v⟩ := x
    simp only [List.map_cons, List.mem_cons] at h
    push_neg at h
    unfold appendDates
    rw [if_neg (fun he => h.1 he.symm), ih h.2]
    rfl

theorem appendDates_keys (m : List (ℤ × List ℤ)) (hid : ℤ) (ds : List ℤ) :
    ∀ m2, appendDates m hid ds = some m2 → m2.map Prod.fst = m.map Prod.fst := by
  induction m with
  | nil => intro m2 h; exact Option.noConfusion h
  | cons x xs ih =>
    intro m2 h
    obtain ⟨k, v⟩ := x
    unfold appendDates at h
    by_cases hk : k = hid
    · rw [if_pos hk] at h
      injection h with h
      subst h
      simp
    · rw [if_neg hk] at h
      cases hax : appendDates xs hid ds with
      | none => rw [hax] at h; exact Option.noConfusion h
      | some r =>
        rw [hax] at h
        injection h with h
        subst h
        simp [ih r hax]

theorem calendarStep_error_is_key (ms me : ℤ) (m : List (ℤ × List ℤ)) (b : Booking)
    (e : BookingError) (h : calendarStep ms me m b = .error e) : e = .keyError := by
  unfold calendarStep at h
  by_cases hlo : max b.start_date ms ≤ min b.end_date me
  · rw [if_pos hlo] at h
    cases hax : appendDates m b.hall_id (dateRange (max b.start_date ms) (min b.end_date me)) with
    | none => rw [hax] at h; injection h with h; exact h.symm
    | some r => rw [hax] at h; simp at h
  · rw [if_neg hlo] at h; simp at h

theorem calendarStep_ok_keys (ms me : ℤ) (m m2 : List (ℤ × List ℤ)) (b : Booking)
    (h : calendarStep ms me m b = .ok m2) : m2.map Prod.fst = m.map Prod.fst := by
  unfold calendarStep at h
  by_cases hlo : max b.start_date ms ≤ min b.end_date me
  · rw [if_pos hlo] at h
    cases hax : appendDates m b.hall_id (dateRange (max b.start_date ms) (min b.end_date me)) with
    | none => rw [hax] at h; simp at h
    | some r =>
      rw [hax] at h
      injection h with h
      rw [← h]
      exact appendDates_keys m _ _ r hax
  · rw [if_neg hlo] at h
    injection h with h
    subst h
    rfl

theorem calendarStep_missing_key (ms me : ℤ) (m : List (ℤ × List ℤ)) (b : Booking)
    (hlo : max b.start_date ms ≤ min b.end_date me)
    (hkey : b.hall_id ∉ m.map Prod.fst) :
    calendarStep ms me m b = .error .keyError := by
  unfold calendarStep
  rw [if_pos hlo, appendDates_eq_none m b.hall_id _ hkey]

theorem foldlM_calendar_error (ms me : ℤ) (l : List Booking) (m : List (ℤ × List ℤ))
    (h : ∃ b ∈ l, max b.start_date ms ≤ min b.end_date me ∧ b.hall_id ∉ m.map Prod.fst) :
    l.foldlM (calendarStep ms me) m = .error .keyError := by
  induction l generalizing m with
  | nil => simp at h
  | cons x xs ih =>
    rw [List.foldlM_cons]
    obtain ⟨b, hb, hlo, hkey⟩ := h
    cases hstep : calendarStep ms me m x with
    | error e =>
      have he := calendarStep_error_is_key ms me m x e hstep
      subst he
      rw [except_bind_error]
    | ok m2 =>
      rw [except_bind_ok]
      rcases List.mem_cons.mp hb with hbx | hbxs
      · subst hbx
        exact absurd hstep (by rw [calendarStep_missing_key ms me m b hlo hkey]; simp)
      · refine ih m2 ⟨b, hbxs, hlo, ?_⟩
        rw [calendarStep_ok_keys ms me m m2 x hstep]
        exact hkey

theorem foldlM_calendar_keys (ms me : ℤ) (l : List Booking) (m m2 : List (ℤ × List ℤ))
    (h : l.foldlM (calendarStep ms me) m = .ok m2) : m2.map Prod.fst = m.map Prod.fst := by
  induction l generalizing m with
  | nil =>
    simp only [List.foldlM_nil] at h
    injection h with h
    subst h
    rfl
  | cons x xs ih =>
    rw [List.foldlM_cons] at h
    cases hstep : calendarStep ms me m x with
    | error e =>
      rw [hstep, except_bind_error] at h
      exact Except.noConfusion h
    | ok mid =>
      rw [hstep, except_bind_ok] at h
      rw [ih mid h]
      exact calendarStep_ok_keys ms me m mid x hstep

/-- C10: `multi_hall_calendar` builds its per-hall map only from
non-deleted halls but appends dates for every booked booking intersecting
the month without filtering by hall, so a booked booking whose `hall_id`
is not among the non-deleted halls makes the `hall_map[b.hall_id]` lookup
raise `KeyError` and the whole calendar operation fail. -/
theorem c10_calendar_keyerror (halls : List Hall) (bs : List Booking)
    (ms me : ℤ) (b : Booking) (hmem : b ∈ bs) (hstatus : b.status = "booked")
    (hdays : max b.start_date ms ≤ min b.end_date me)
    (hkey : b.hall_id ∉ (halls.filter (fun h => !h.deleted)).map Hall.id) :
    multi_hall_calendar halls bs ms me = .error .keyError := by
  have h1 : b.start_date ≤ me := le_trans (le_trans (le_max_left _ _) hdays) (min_le_right _ _)
  have h2 : b.end_date ≥ ms := le_trans (le_trans (le_max_right _ _) hdays) (min_le_left _ _)
  unfold multi_hall_calendar
  have hq : b ∈ bs.filter (fun b => (b.status == "booked") &&
      decide (b.start_date ≤ me) && decide (b.end_date ≥ ms)) := by
    rw [List.mem_filter]
    exact ⟨hmem, by simp [hstatus, h1, h2]⟩
  have hkeys : (((halls.filter (fun h => !h.deleted)).map
      (fun h => (h.id, ([] : List ℤ)))).map Prod.fst) =
      (halls.filter (fun h => !h.deleted)).map Hall.id := by
    rw [List.map_map]
    rfl
  have herr := foldlM_calendar_error ms me _ _ ⟨b, hq, hdays, by rw [hkeys]; exact hkey⟩
  show (_ >>= _ : Except BookingError _) = _
  rw [herr, except_bind_error]

theorem c10_witness : multi_hall_calendar [] [bookMulti] 20240 20269 = .error .keyError :=
  c10_calendar_keyerror [] [bookMulti] 20240 20269 bookMulti (List.mem_singleton.mpr rfl)
    rfl (by decide) (by simp)

/-- C9: when a booking's `payment_status` is already `"success"`,
`verify_payment` returns the success response without invoking the
signature check and without changing the booking. -/
theorem c9_verify_idempotent (b : Booking) (sig_valid : Bool) (pid sig : String)
    (h : b.payment_status = "success") :
    verify_payment b sig_valid pid sig =
      ⟨false, .ok "Payment already verified", b⟩ := by
  unfold verify_payment
  rw [if_pos (by simp [h])]

theorem c9_witness :
    verify_payment bookPaid true "pay_1" "sig_1" =
      ⟨false, .ok "Payment already verified", bookPaid⟩ :=
  c9_verify_idempotent bookPaid true "pay_1" "sig_1" rfl

/-- C8 (amended): `create_booking` rejects a request whose hall lookup
(filtered to non-deleted halls) comes back empty with `NotFound`, and a
successful `multi_hall_calendar` lists exactly the non-deleted halls;
`available_dates`/`available_slots`, by contrast, never consult the halls
table at all (their definitions take only the bookings), so they answer
availability even for deleted halls. -/
theorem c8_deleted_hall_amended :
    (∀ (halls : List Hall) (bs : List Booking) (uid today nid : ℤ) (nowt : ℕ)
      (data : BookingCreate),
      halls.find? (fun h => (h.id == data.hall_id) && !h.deleted) = none →
      create_booking halls bs "user" uid today nowt nid data = .error .notFound) ∧
    (∀ (halls : List Hall) (bs : List Booking) (ms me : ℤ) (out : List (ℤ × List ℤ)),
      multi_hall_calendar halls bs ms me = .ok out →
      out.map Prod.fst = (halls.filter (fun h => !h.deleted)).map Hall.id) := by
  constructor
  · intro halls bs uid today nid nowt data hfind
    unfold create_booking
    rw [if_neg (by decide), hfind]
  · intro halls bs ms me out h
    unfold multi_hall_calendar at h
    have h2 : ((bs.filter (fun b => (b.status == "booked") &&
        decide (b.start_date ≤ me) && decide (b.end_date ≥ ms))).foldlM
        (calendarStep ms me)
        ((halls.filter (fun h => !h.deleted)).map (fun h => (h.id, ([] : List ℤ)))) >>=
        fun final => pure (final.map
          (fun p => (p.1, sortBy (fun a b => decide (a ≤ b)) p.2.dedup)))) = .ok out := h
    cases hfold : (bs.filter (fun b => (b.status == "booked") &&
        decide (b.start_date ≤ me) && decide (b.end_date ≥ ms))).foldlM
        (calendarStep ms me)
        ((halls.filter (fun h => !h.deleted)).map (fun h => (h.id, ([] : List ℤ)))) with
    | error e =>
      rw [hfold, except_bind_error] at h2
      exact Except.noConfusion h2
    | ok final =>
      rw [hfold, except_bind_ok] at h2
      have hout : final.map (fun p => (p.1, sortBy (fun a b => decide (a ≤ b)) p.2.dedup)) = out :=
        Except.ok.inj h2
      rw [← hout, List.map_map]
      have hcomp : (Prod.fst ∘ fun p : ℤ × List ℤ =>
          (p.1, sortBy (fun a b => decide (a ≤ b)) p.2.dedup)) = Prod.fst := rfl
      rw [hcomp]
      rw [foldlM_calendar_keys ms me _ _ final hfold, List.map_map]
      rfl

theorem c8_witness :
    create_booking [hallDeleted] [] "user" 7 20240 0 1 reqDeleted = .error .notFound :=
  c8_deleted_hall_amended.1 [hallDeleted] [] 7 20240 1 0 reqDeleted (by decide)

/-- C8 counterexample: a soft-deleted hall is *not* excluded from the
availability views: with hall 1 deleted, `available_dates` still answers
for hall 1 (excluding the days its booked booking occupies) and
`available_slots` still reports the full day free on an untouched date,
so the views do treat the deleted hall as queryable. -/
theorem c8_counterexample :
    hallDeleted.deleted = true ∧
    available_dates [bookSame] hallDeleted.id 20240 20244 = [20241, 20242, 20243, 20244] ∧
    available_slots [bookSame] hallDeleted.id 20241 = [(0, 1439)] := by
  refine ⟨rfl, by decide, by decide⟩

/-- C1: the availability/conflict consistency property fails on the code.
With the booked multi-day booking 2025-06-01 20:00 → 2025-06-02 10:00,
`available_slots` reports 00:00–20:00 (minutes 0–1200) free on
2025-06-01, which contains the window 10:00–12:00 (600–720); yet
`has_conflict` rejects the same-day candidate (2025-06-01, 10:00–12:00)
because it treats any date overlap with a multi-day booking as a
conflict regardless of times. -/
theorem c1_available_slot_still_conflicts :
    available_slots [bookMulti] 1 20240 = [(0, 1200)] ∧
    (0 ≤ 600 ∧ 720 ≤ 1200) ∧
    has_conflict [bookMulti] 1 20240 20240 600 720 = true := by
  refine ⟨by decide, by decide, by decide⟩

/-- C2: the boundary-day rule fails on the code.  The candidate
(2025-06-01, 10:00–12:00) starts on the start day of the booked
multi-day booking 2025-06-01 20:00 → 2025-06-02 10:00; the existing
booking's start time (20:00) is *not* before the candidate's end time
(12:00), so the claimed rule yields no conflict, but `has_conflict`
returns true: the code never compares boundary times for multi-day
bookings. -/
theorem c2_boundary_rule_refuted :
    bookMulti.start_date ≠ bookMulti.end_date ∧
    (20240 : ℤ) = bookMulti.start_date ∧
    ¬(bookMulti.start_time < 720) ∧
    has_conflict [bookMulti] 1 20240 20240 600 720 = true := by
  refine ⟨by decide, by decide, by decide, by decide⟩

/-- C3: the multi-day price diverges from the per-day weekend-adjusted
sum.  For the spec's rate card and the span 2025-06-07 (Sat) 20:00 →
2025-06-09 (Mon) 10:00, the code charges the first (Saturday) day's
hours without the weekend multiplier and yields 4450, while the spec's
day-walking semantics (first day 4×100×1.5 = 600, Sunday 2000×1.5 =
3000, last day 10×100 = 1000, deposit 50) yields 4650. -/
theorem c3_multi_day_price_divergence :
    calculate_price hallCard 20246 20248 1200 600 = .ok 4450 ∧
    spec_day_walk_price hallCard 20246 20248 1200 600 = .ok 4650 := by
  constructor
  · unfold calculate_price
    rw [if_neg (by decide)]
    simp only [hallCard, hoursOf,
      show ((20248 : ℤ) - 20246 - 1).toNat = 1 from by decide,
      show isWeekend (20246 + ((0 : ℕ) + 1 : ℤ)) = true from by decide,
      show isWeekend (20248 : ℤ) = false from by decide,
      List.range_succ, List.range_zero, List.foldl, Bool.false_eq_true,
      if_false, if_true, List.nil_append]
    rw [round2_eq _ 445000 (by norm_num) (by norm_num)]
    norm_num
  · unfold spec_day_walk_price
    rw [if_neg (by decide)]
    simp only [hallCard, hoursOf,
      show ((20248 : ℤ) - 20246 - 1).toNat = 1 from by decide,
      show isWeekend (20246 : ℤ) = true from by decide,
      show isWeekend (20246 + ((0 : ℕ) + 1 : ℤ)) = true from by decide,
      show isWeekend (20248 : ℤ) = false from by decide,
      List.range_succ, List.range_zero, List.foldl, Bool.false_eq_true,
      if_false, if_true, List.nil_append]
    rw [round2_eq _ 465000 (by norm_num) (by norm_num)]
    norm_num

/-- C4: for same-day booked bookings on the same hall and the same date
as a same-day candidate, `has_conflict` is exactly the strict time
overlap test `existing.start < candidate.end AND existing.end >
candidate.start`. -/
theorem c4_same_day_strict_overlap (bs : List Booking) (hid d : ℤ) (st et : ℕ)
    (h : ∀ b ∈ bs, b.hall_id = hid ∧ b.status = "booked" ∧
      b.start_date = d ∧ b.end_date = d) :
    has_conflict bs hid d d st et =
      bs.any (fun b => decide (b.start_time < et) && decide (st < b.end_time)) := by
  unfold has_conflict
  induction bs with
  | nil => rfl
  | cons x xs ih =>
    simp only [List.any_cons]
    have hx := h x (by simp)
    rw [ih (fun b hb => h b (by simp [hb]))]
    congr 1
    obtain ⟨h1, h2, h3, h4⟩ := hx
    unfold conflictMatch
    simp [h1, h2, h3, h4]

/-- C4 witness: the spec scenario.  With hall 1 booked 2025-06-01
10:00–14:00, the candidate 13:00–15:00 conflicts and the adjacent
candidate 14:00–16:00 does not. -/
theorem c4_witness :
    has_conflict [bookSame] 1 20240 20240 780 900 = true ∧
    has_conflict [bookSame] 1 20240 20240 840 960 = false := by
  constructor
  · rw [c4_same_day_strict_overlap [bookSame] 1 20240 780 900 (by decide)]
    decide
  · rw [c4_same_day_strict_overlap [bookSame] 1 20240 840 960 (by decide)]
    decide

/-- C5: same-day pricing equals the claimed closed form — fail with
`InvalidDuration` when the duration is non-positive, otherwise
`round(hours × price_per_hour × weekend_factor + security_deposit, 2)` —
and the spec's concrete scenario prices at 450 on a weekday
(2025-06-03) and 650 on a Saturday (2025-06-07). -/
theorem c5_same_day_price :
    (∀ (hall : Hall) (d : ℤ) (st et : ℕ),
      calculate_price hall d d st et =
        if hoursOf et - hoursOf st ≤ 0 then .error .invalidDuration
        else .ok (round2 ((hoursOf et - hoursOf st) * hall.price_per_hour *
          (if isWeekend d then hall.weekend_price_multiplier else 1) +
          hall.security_deposit))) ∧
    calculate_price hallCard 20242 20242 600 840 = .ok 450 ∧
    calculate_price hallCard 20246 20246 600 840 = .ok 650 := by
  refine ⟨?_, ?_, ?_⟩
  · intro hall d st et
    unfold calculate_price
    rw [if_pos rfl]
    by_cases h : hoursOf et - hoursOf st ≤ 0
    · rw [if_pos h, if_pos h]
    · rw [if_neg h, if_neg h]
      cases hw : isWeekend d with
      | true => simp
      | false => simp [mul_one]
  · unfold calculate_price
    rw [if_pos rfl]
    simp only [hallCard, hoursOf, show isWeekend (20242 : ℤ) = false from by decide,
      Bool.false_eq_true, if_false]
    rw [if_neg (by norm_num)]
    rw [round2_eq _ 45000 (by norm_num) (by norm_num)]
    norm_num
  · unfold calculate_price
    rw [if_pos rfl]
    simp only [hallCard, hoursOf, show isWeekend (20246 : ℤ) = true from by decide,
      if_true]
    rw [if_neg (by norm_num)]
    rw [round2_eq _ 65000 (by norm_num) (by norm_num)]
    norm_num

/-- C6 counterexample: price is *not* monotone in span duration.  On
`hallMono` (hourly 100, day rate 0, weekend multiplier 2, no deposit,
all rates non-negative and multiplier ≥ 1), the span 2025-06-06 (Fri)
00:00 → 2025-06-08 (Sun) 10:00 costs 6800, while extending it to
2025-06-09 (Mon) 00:30 — strictly more occupied time, same start —
drops the price to 2450, because the code multiplies the whole total by
the weekend multiplier only when the *end* date is a weekend. -/
theorem c6_counterexample :
    calculate_price hallMono 20245 20247 0 600 = .ok 6800 ∧
    calculate_price hallMono 20245 20248 0 30 = .ok 2450 ∧
    (2450 : ℚ) < 6800 := by
  refine ⟨?_, ?_, by norm_num⟩
  · unfold calculate_price
    rw [if_neg (by decide)]
    simp only [hallMono, hoursOf,
      show ((20247 : ℤ) - 20245 - 1).toNat = 1 from by decide,
      show isWeekend (20245 + ((0 : ℕ) + 1 : ℤ)) = true from by decide,
      show isWeekend (20247 : ℤ) = true from by decide,
      List.range_succ, List.range_zero, List.foldl, Bool.false_eq_true,
      if_false, if_true, List.nil_append]
    rw [round2_eq _ 680000 (by norm_num) (by norm_num)]
    norm_num
  · unfold calculate_price
    rw [if_neg (by decide)]
    simp only [hallMono, hoursOf,
      show ((20248 : ℤ) - 20245 - 1).toNat = 2 from by decide,
      show isWeekend (20245 + ((0 : ℕ) + 1 : ℤ)) = true from by decide,
      show isWeekend (20245 + ((1 : ℕ) + 1 : ℤ)) = true from by decide,
      show isWeekend (20248 : ℤ) = false from by decide,
      List.range_succ, List.range_zero, List.foldl_append, List.foldl,
      Bool.false_eq_true, if_false, if_true, List.nil_append]
    rw [round2_eq _ 245000 (by norm_num) (by norm_num)]
    norm_num

/-- C6 (amended): the price is monotone non-decreasing in the end *time*
for spans sharing the hall, start date, start time and end date, given a
non-negative hourly rate and a weekend multiplier ≥ 1 (for same-day
spans the shorter one must have positive duration).  Monotonicity in
full span duration fails (see the counterexample): moving the end to a
later *date* can lower the price. -/
theorem c6_price_monotone_in_end_time (hall : Hall) (sd ed : ℤ) (st et et2 : ℕ)
    (hpph : 0 ≤ hall.price_per_hour) (hmult : 1 ≤ hall.weekend_price_multiplier)
    (hvalid : sd = ed → st < et) (hle : et ≤ et2) :
    ∃ p p2, calculate_price hall sd ed st et = .ok p ∧
      calculate_price hall sd ed st et2 = .ok p2 ∧ p ≤ p2 := by
  have hh : hoursOf et ≤ hoursOf et2 := by
    unfold hoursOf
    apply div_le_div_of_nonneg_right ?_ (by norm_num)
    exact_mod_cast hle
  by_cases hse : sd = ed
  · subst hse
    have hst : (st : ℚ) < et := by exact_mod_cast hvalid rfl
    have h1 : ¬(hoursOf et - hoursOf st ≤ 0) := by
      unfold hoursOf
      rw [not_le, div_sub_div_same]
      apply div_pos (by linarith) (by norm_num)
    have h2 : ¬(hoursOf et2 - hoursOf st ≤ 0) := by
      intro hc
      exact h1 (le_trans (by linarith) hc)
    unfold calculate_price
    rw [if_pos rfl, if_pos rfl, if_neg h1, if_neg h2]
    refine ⟨_, _, rfl, rfl, round2_mono ?_⟩
    dsimp only
    cases hw : isWeekend sd with
    | true =>
      simp only [if_true]
      have h0 : (0 : ℚ) ≤ hall.weekend_price_multiplier := by linarith
      gcongr
    | false =>
      simp only [Bool.false_eq_true, if_false]
      gcongr
  · unfold calculate_price
    rw [if_neg hse, if_neg hse]
    refine ⟨_, _, rfl, rfl, round2_mono ?_⟩
    dsimp only
    cases hw : isWeekend ed with
    | true =>
      simp only [if_true]
      have h0 : (0 : ℚ) ≤ hall.weekend_price_multiplier := by linarith
      gcongr
    | false =>
      simp only [Bool.false_eq_true, if_false]
      gcongr

theorem c6_witness :
    ∃ p p2, calculate_price hallCard 20242 20242 600 840 = .ok p ∧
      calculate_price hallCard 20242 20242 600 900 = .ok p2 ∧ p ≤ p2 :=
  c6_price_monotone_in_end_time hallCard 20242 20242 600 840 900
    (by norm_num [hallCard]) (by norm_num [hallCard]) (fun _ => by norm_num)
    (by norm_num)

/-- C7: only `status = "booked"` bookings occupy time: `has_conflict`,
`available_dates` and `available_slots` are unchanged by first dropping
every non-booked booking, and after `cancel_booking` succeeds a new
conflict check on the same span is clean provided no *other* stored
booking matches the conflict query. -/
theorem c7_only_booked_occupies :
    ∀ (bs : List Booking) (hid sd ed ms me td uid bid : ℤ) (st et : ℕ)
      (bs2 : List Booking),
    (has_conflict bs hid sd ed st et =
      has_conflict (bs.filter (fun b => b.status == "booked")) hid sd ed st et) ∧
    (available_dates bs hid ms me =
      available_dates (bs.filter (fun b => b.status == "booked")) hid ms me) ∧
    (available_slots bs hid td =
      available_slots (bs.filter (fun b => b.status == "booked")) hid td) ∧
    (cancel_booking bs uid bid = .ok bs2 →
      (∀ b ∈ bs, ¬(b.id = bid ∧ b.user_id = uid) →
        conflictMatch hid sd ed st et b = false) →
      has_conflict bs2 hid sd ed st et = false) := by
  intro bs hid sd ed ms me td uid bid st et bs2
  refine ⟨?_, ?_, ?_, ?_⟩
  · unfold has_conflict
    exact (filter_booked_any bs _ (conflictMatch_booked hid sd ed st et)).symm
  · unfold available_dates
    rw [filter_booked_filter bs (overlapQuery hid ms me) (overlapQuery_booked hid ms me)]
  · unfold available_slots
    rw [filter_booked_filter bs (overlapQuery hid td td) (overlapQuery_booked hid td td)]
  · intro hok hother
    unfold cancel_booking at hok
    by_cases hex : bs.any (fun b => (b.id == bid) && (b.user_id == uid))
    · rw [if_pos hex] at hok
      injection hok with hok
      rw [← hok]
      unfold has_conflict
      rw [List.any_map]
      rw [List.any_eq_false]
      intro b hb
      by_cases hbm : (b.id == bid) && (b.user_id == uid)
      · simp only [Function.comp, hbm, if_true]
        unfold conflictMatch
        simp
      · simp only [Function.comp, hbm, Bool.false_eq_true, if_false]
        rw [Bool.not_eq_true]
        apply hother b hb
        intro hand
        exact hbm (by simp [hand.1, hand.2])
    · rw [if_neg hex] at hok
      exact Except.noConfusion hok

theorem c7_witness :
    has_conflict [{ bookSame with status := "cancelled" }] 1 20240 20240 600 840 = false := by
  have h := (c7_only_booked_occupies [bookSame] 1 20240 20240 0 0 0 1 2 600 840
    [{ bookSame with status := "cancelled" }]).2.2.2
  apply h rfl
  intro b hb hne
  simp only [List.mem_singleton] at hb
  subst hb
  exact absurd ⟨rfl, rfl⟩ hne

end HallsBooking
